import Mathlib

/-!
Verification of the ldebug life-logging core: the classification-normalization
pipeline (taxonomy resolution, heuristic score inference, payload
normalization) and the retrieval/context-assembly engine (full-text search,
recency fetch, merge with de-duplication).

The definitions below are a shallow embedding of the TypeScript source:

* src/unnamed/part_002  (getOrCreateDomain, getOrCreateActivity, saveLogEntry)
* src/unnamed/part_001  (saveChatMessage)
* src/src/actions/getMemory.ts  (getRelatedLogs, getLogsByDateRange, getRecentLogs)
* src/src/app/components/ChatPage.tsx  (handleSendMessage merge step)

Modelling conventions:
* JS strings are Lean `String`; the JS string operations used by the source
  (trim, toLowerCase, toUpperCase, includes, split, substring, template
  concatenation) are implemented below over `String.data` with JS semantics
  restricted to ASCII text, which is all the source ever feeds them.
* JS numbers that the source treats as integral scores/amounts are `Int`
  (so `Math.round` is the identity and is dropped); timestamps are `Int`
  milliseconds, with calendar day arithmetic done at millisecond
  granularity (no DST modelling).
* Absent (`undefined`) values are `Option.none`; JS falsiness of `""` and
  `0` is spelled out at each use site, mirroring the source conditions.
* The database is a list of rows per table; `serial` ids come from an
  explicit next-id counter; `SELECT ... LIMIT 1` is `List.find?`;
  `ORDER BY createdAt DESC` is `List.insertionSort` with the reversed
  order; the full-text-search predicate of the storage collaborator is an
  abstract parameter.
-/

/-! ## JS string primitives (ASCII semantics) -/

def jsWhitespace (c : Char) : Bool :=
  c == ' ' || c == '\t' || c == '\n' || c == '\r'

/-- JS `String.prototype.trim` (over the whitespace the source can see). -/
def jsTrim (s : String) : String :=
  String.mk (((s.data.dropWhile jsWhitespace).reverse.dropWhile jsWhitespace).reverse)

/-- JS `String.prototype.toLowerCase` on ASCII text. -/
def jsToLower (s : String) : String :=
  String.mk (s.data.map Char.toLower)

/-- JS `String.prototype.toUpperCase` on ASCII text. -/
def jsToUpper (s : String) : String :=
  String.mk (s.data.map Char.toUpper)

/-- Does the character list start with the given needle? -/
def listStartsWith : List Char → List Char → Bool
  | _, [] => true
  | [], _ :: _ => false
  | a :: as, b :: bs => a == b && listStartsWith as bs

/-- Contiguous-sublist test on character lists. -/
def listContainsSub : List Char → List Char → Bool
  | [], needle => needle.isEmpty
  | h :: hs, needle => listStartsWith (h :: hs) needle || listContainsSub hs needle

/-- JS `String.prototype.includes`. -/
def jsIncludes (s sub : String) : Bool :=
  listContainsSub s.data sub.data

/-- JS `String.prototype.split` with a single-character separator
(consecutive separators yield empty tokens; the empty string yields one
empty token, exactly as in JS). -/
def splitChars (sep : Char) : List Char → List (List Char)
  | [] => [[]]
  | c :: cs =>
      let r := splitChars sep cs
      if c == sep then [] :: r
      else
        match r with
        | [] => [[c]]
        | g :: gs => (c :: g) :: gs

/-- JS `userQuery.split(' ')`. -/
def jsSplitSpace (s : String) : List String :=
  (splitChars ' ' s.data).map String.mk

/-- JS `Array.prototype.join(sep)`. -/
def joinSep (sep : String) : List String → String
  | [] => ""
  | [x] => x
  | x :: y :: ys => x ++ sep ++ joinSep sep (y :: ys)

/-- JS `String.prototype.substring(0, n)`. -/
def jsSubstring (s : String) (n : Nat) : String :=
  String.mk (s.data.take n)

/-- The apostrophe character (U+0027), used inside one inferred keyword. -/
def apos : Char := Char.ofNat 39

/-! ## Score Inferencer (part_002, saveLogEntry lines 127-166) -/

def moodLowKeywords : List String := ["exhausted", "tired", "guilty", "sad", "depressed"]
def moodHighKeywords : List String := ["good", "happy", "won", "excited", "great"]
def moodOkKeywords : List String := ["okay", "fine", "normal"]
def energyLowKeywords : List String := ["exhausted", "tired", "drained", "worn out"]
def energyHighKeywords : List String := ["energetic", "excited", "active", "pumped"]
def prodHighKeywords : List String := ["working", "solved", "completed", "won", "finished"]
def prodLowKeywords : List String :=
  ["bug", "couldn" ++ String.mk [apos] ++ "t", "failed", "stuck"]

/-- Does the lowercased description contain any keyword of the rule? -/
def containsAny (desc : String) (kws : List String) : Bool :=
  kws.any (fun k => jsIncludes desc k)

/-- Mood inference when the caller supplied no `moodScore`
(lines 128-139 of saveLogEntry). -/
def inferMoodScore (description : String) : Int :=
  let desc := jsToLower description
  if containsAny desc moodLowKeywords then 3
  else if containsAny desc moodHighKeywords then 8
  else if containsAny desc moodOkKeywords then 6
  else 5

/-- Energy inference when the caller supplied no `energyLevel`
(lines 141-150 of saveLogEntry). -/
def inferEnergyLevel (description : String) : Int :=
  let desc := jsToLower description
  if containsAny desc energyLowKeywords then 2
  else if containsAny desc energyHighKeywords then 8
  else 5

/-- Productivity inference when the caller supplied no `productivityScore`
(lines 152-161 of saveLogEntry). -/
def inferProductivityScore (description : String) : Int :=
  let desc := jsToLower description
  if containsAny desc prodHighKeywords then 8
  else if containsAny desc prodLowKeywords then 3
  else 5

/-- The clamp `Math.round(Math.max(1, Math.min(10, x)))` on an integral score. -/
def clampScore (x : Int) : Int :=
  max 1 (min 10 x)

/-! ## JS objects (for `metadata`, `context`, `aiContext`) -/

/-- A JSON-like value as the normalizer sees it: the source only ever
writes string values and nested objects into the metadata it assembles. -/
inductive JVal where
  | jstr : String → JVal
  | jobj : List (String × JVal) → JVal

/-- A JS object, as an ordered key-value list (keys of a parsed JS object
are unique; all operations below also behave correctly on that fragment). -/
abbrev Obj := List (String × JVal)

/-- The `Object.keys(o).length > 0` test is `0 < o.length` on this model. -/
def hasKey (o : Obj) (k : String) : Bool :=
  o.any (fun p => p.1 == k)

/-- Property read `o[k]` (first occurrence). -/
def getKey : Obj → String → Option JVal
  | [], _ => none
  | (k', v) :: rest, k => if k' == k then some v else getKey rest k

/-- Property write `o[k] = v` / spread-override: replaces the value in
place when the key exists, appends otherwise (JS key-order semantics). -/
def setKey (o : Obj) (k : String) (v : JVal) : Obj :=
  if hasKey o k then o.map (fun p => if p.1 == k then (k, v) else p)
  else o ++ [(k, v)]

/-- The `action` field of the incoming payload (part_002 lines 19-22). -/
structure ActionObj where
  action : Option String
  priority : Option String
deriving DecidableEq

/-- JS `data.action?.action || 'acknowledge'` (the empty string is falsy). -/
def aiActionOf (a : Option ActionObj) : String :=
  match a with
  | some x => match x.action with
    | some s => if s = "" then "acknowledge" else s
    | none => "acknowledge"
  | none => "acknowledge"

/-- JS `data.action?.priority || 'medium'` (the empty string is falsy). -/
def aiPriorityOf (a : Option ActionObj) : String :=
  match a with
  | some x => match x.priority with
    | some s => if s = "" then "medium" else s
    | none => "medium"
  | none => "medium"

/-- The write `metadata.aiContext = data.context` guarded by
`data.context && Object.keys(data.context).length > 0`
(part_002 lines 192-194 and 201-203). -/
def attachCtx (base : Obj) (ctx : Option Obj) : Obj :=
  match ctx with
  | some c => if 0 < c.length then setKey base "aiContext" (JVal.jobj c) else base
  | none => base

/-- Metadata assembly of saveLogEntry (part_002 lines 179-204): spread the
payload metadata when it has keys, else start from the action defaults when
`action` or `context` is present, else keep `null`. -/
def buildMetadata (md : Option Obj) (action : Option ActionObj) (ctx : Option Obj) : Option Obj :=
  if 0 < (md.getD []).length then
    some (attachCtx
      (setKey (setKey (md.getD []) "aiAction" (JVal.jstr (aiActionOf action)))
        "aiPriority" (JVal.jstr (aiPriorityOf action)))
      ctx)
  else if action.isSome || ctx.isSome then
    some (attachCtx
      [("aiAction", JVal.jstr (aiActionOf action)),
       ("aiPriority", JVal.jstr (aiPriorityOf action))]
      ctx)
  else none

/-- The `insertData.metadata` null-vs-object decision (part_002 lines 306-311). -/
def storedMetadata (md : Option Obj) (action : Option ActionObj) (ctx : Option Obj) : Option Obj :=
  match buildMetadata md action ctx with
  | some m => if 0 < m.length then some m else none
  | none => none

/-! ## Log Normalizer (part_002, saveLogEntry) -/

/-- Nested `log` field of the incoming payload. -/
structure LogPart where
  description : Option String
  user_input : Option String

/-- The untrusted incoming payload (part_002 lines 8-38); classification is
flattened into its two fields. -/
structure IncomingLogData where
  log : LogPart
  classificationDomain : Option String
  classificationActivity : Option String
  metadata : Option Obj
  context : Option Obj
  action : Option ActionObj
  moodScore : Option Int
  energyLevel : Option Int
  productivityScore : Option Int
  stressLevel : Option Int
  satisfactionScore : Option Int
  location : Option String
  timeOfDay : Option String
  durationMinutes : Option Int
  amount : Option Int
  currency : Option String
  sentiment : Option String
  relatedLogIds : Option (List Int)
  goalId : Option Int

/-- The canonical record handed to the storage collaborator
(part_002 lines 207-238; `amount` is stored stringified as in the source). -/
structure InsertData where
  content : String
  description : String
  userInput : String
  domainId : Nat
  activityId : Nat
  moodScore : Int
  energyLevel : Int
  productivityScore : Int
  stressLevel : Option Int
  satisfactionScore : Option Int
  metadata : Option Obj
  location : Option String
  timeOfDay : Option String
  durationMinutes : Option Int
  amount : Option String
  currency : Option String
  sentiment : Option String
  priority : String
  relatedLogIds : Option (List Int)
  goalId : Option Int

def validTimeOfDay : List String := ["morning", "afternoon", "evening", "night"]

def validSentiments : List String := ["positive", "negative", "neutral"]

/-- The pure normalization core of saveLogEntry (part_002 lines 99-311):
everything between payload receipt and the single insert call, with the
already-resolved taxonomy ids passed in. -/
def buildInsertData (data : IncomingLogData) (domainId activityId : Nat) : InsertData :=
  let description0 := jsTrim (data.log.description.getD "")
  let userInput0 := jsTrim (data.log.user_input.getD "")
  let description :=
    if description0 = "" then
      (if userInput0 = "" then "No description provided" else userInput0)
    else description0
  let userInput := if userInput0 = "" then description else userInput0
  let moodScore :=
    clampScore (match data.moodScore with | some v => v | none => inferMoodScore description)
  let energyLevel :=
    clampScore (match data.energyLevel with | some v => v | none => inferEnergyLevel description)
  let productivityScore :=
    clampScore (match data.productivityScore with
      | some v => v
      | none => inferProductivityScore description)
  { content := userInput
    description := description
    userInput := userInput
    domainId := domainId
    activityId := activityId
    moodScore := moodScore
    energyLevel := energyLevel
    productivityScore := productivityScore
    stressLevel := data.stressLevel.map clampScore
    satisfactionScore := data.satisfactionScore.map clampScore
    metadata := storedMetadata data.metadata data.action data.context
    location := match data.location with
      | some l => if l ≠ "" ∧ jsTrim l ≠ "" then some (jsTrim l) else none
      | none => none
    timeOfDay := match data.timeOfDay with
      | some t => if t ≠ "" ∧ validTimeOfDay.contains (jsToLower t) then some (jsToLower t)
          else none
      | none => none
    durationMinutes := match data.durationMinutes with
      | some d => if d ≠ 0 ∧ 0 < d then some d else none
      | none => none
    amount := match data.amount with
      | some a => if a ≠ 0 ∧ 0 < a then some (toString a) else none
      | none => none
    currency := match data.amount with
      | some a =>
          if a ≠ 0 ∧ 0 < a then
            some (match data.currency with
              | some c => if c ≠ "" ∧ jsTrim c ≠ "" then jsToUpper c else "INR"
              | none => "INR")
          else none
      | none => none
    sentiment := match data.sentiment with
      | some s => if s ≠ "" ∧ validSentiments.contains (jsToLower s) then some (jsToLower s)
          else none
      | none => none
    priority := aiPriorityOf data.action
    relatedLogIds := match data.relatedLogIds with
      | some l => if 0 < l.length then some l else none
      | none => none
    goalId := match data.goalId with
      | some g => if g ≠ 0 then some g else none
      | none => none }

/-- A payload with every field absent, used as the base of concrete tests. -/
def emptyPayload : IncomingLogData :=
  { log := { description := none, user_input := none }
    classificationDomain := none
    classificationActivity := none
    metadata := none
    context := none
    action := none
    moodScore := none
    energyLevel := none
    productivityScore := none
    stressLevel := none
    satisfactionScore := none
    location := none
    timeOfDay := none
    durationMinutes := none
    amount := none
    currency := none
    sentiment := none
    relatedLogIds := none
    goalId := none }

/-! ## Taxonomy Resolver (part_002, getOrCreateDomain) -/

/-- A row of the `domains` table (the schema leaves `color` nullable and
defaults `isActive` to true). -/
structure DomainRow where
  id : Nat
  name : String
  color : Option String
  isActive : Bool
deriving DecidableEq

/-- The `domains` table plus the `serial` id counter. -/
structure DomainStore where
  rows : List DomainRow
  nextId : Nat
deriving DecidableEq

/-- Preset colors for known lowercase domain keys (part_002 lines 53-61). -/
def domainColors : List (String × String) :=
  [("work", "#3B82F6"), ("health", "#EF4444"), ("finance", "#F59E0B"),
   ("social", "#10B981"), ("growth", "#8B5CF6"), ("leisure", "#EC4899"),
   ("general", "#6B7280")]

/-- JS `domainColors[normalized] || '#6B7280'`. -/
def colorFor (normalized : String) : String :=
  match domainColors.find? (fun p => p.1 == normalized) with
  | some p => p.2
  | none => "#6B7280"

/-- JS `t.charAt(0).toUpperCase() + t.slice(1).toLowerCase()`
(the empty string maps to the empty string, as in JS). -/
def capitalizeFirst (s : String) : String :=
  match s.data with
  | [] => ""
  | c :: cs => String.mk (Char.toUpper c :: cs.map Char.toLower)

/-- The canonical (uniqueness-key) form of a domain name. -/
def canonicalDomainName (s : String) : String :=
  capitalizeFirst (jsTrim s)

/-- getOrCreateDomain (part_002 lines 41-70): canonicalize, look up by
canonical name, insert with preset-or-default color when absent; returns
the id and the updated store. -/
def getOrCreateDomain (st : DomainStore) (domainName : String) : Nat × DomainStore :=
  let normalized := jsToLower (jsTrim domainName)
  let capitalized := capitalizeFirst (jsTrim domainName)
  match st.rows.find? (fun d => d.name == capitalized) with
  | some d => (d.id, st)
  | none =>
      let row : DomainRow :=
        { id := st.nextId, name := capitalized, color := some (colorFor normalized),
          isActive := true }
      (st.nextId, { rows := st.rows ++ [row], nextId := st.nextId + 1 })

/-! ## Retrieval Engine (getMemory.ts) -/

/-- A row of the `logs` table joined with domain/activity names, carrying
the columns the retrieval paths read. -/
structure MemLogRow where
  id : Nat
  createdAt : Int
  content : String
  description : String
  userInput : String
  domainName : Option String
  activityName : Option String
deriving DecidableEq

/-- The ordering `ORDER BY logs.createdAt DESC`. -/
def orderByCreatedAtDesc (l : List MemLogRow) : List MemLogRow :=
  List.insertionSort (fun a b => b.createdAt ≤ a.createdAt) l

/-- getLogsByDateRange (getMemory.ts lines 141-182): rows with
`startDate <= createdAt <= endDate`, newest first. -/
def getLogsByDateRange (rows : List MemLogRow) (startDate endDate : Int) : List MemLogRow :=
  orderByCreatedAtDesc
    (rows.filter (fun l => decide (startDate ≤ l.createdAt ∧ l.createdAt ≤ endDate)))

def msPerDay : Int := 86400000

/-- The effect of `setHours(0,0,0,0)` on a local-time millisecond timestamp. -/
def startOfDayMs (t : Int) : Int :=
  t - t % msPerDay

/-- The effect of `setHours(23,59,59,999)` on a local-time millisecond timestamp. -/
def endOfDayMs (t : Int) : Int :=
  startOfDayMs t + 86399999

/-- getRecentLogs (getMemory.ts lines 298-312): range query from midnight
of the day `days` days before `now` through 23:59:59.999 of today. -/
def getRecentLogs (rows : List MemLogRow) (now : Int) (days : Nat) : List MemLogRow :=
  getLogsByDateRange rows (startOfDayMs (now - days * msPerDay)) (endOfDayMs now)

/-- The summary shape returned by getRelatedLogs (lines 44-58); the
metric/metadata columns it carries along are not modelled. -/
structure RelatedLog where
  id : Nat
  date : Int
  content : String
  description : String
  userInput : String
  domain : String
  activity : String
deriving DecidableEq

/-- Result formatting of getRelatedLogs, with the
`log.domainName || 'Unknown'` fallbacks. -/
def formatRelatedLog (l : MemLogRow) : RelatedLog :=
  { id := l.id, date := l.createdAt, content := l.content,
    description := l.description, userInput := l.userInput,
    domain := match l.domainName with
      | some d => if d = "" then "Unknown" else d
      | none => "Unknown"
    activity := match l.activityName with
      | some a => if a = "" then "Unknown" else a
      | none => "Unknown" }

/-- getRelatedLogs (getMemory.ts lines 7-64): tokenize on single spaces,
keep tokens longer than 3 characters, OR-join; when nothing survives the
filter, answer the empty list with no storage query (second component:
whether a query was issued). The storage full-text predicate is the
abstract `fts` parameter applied to the OR-joined term string. -/
def getRelatedLogs (fts : String → MemLogRow → Bool) (rows : List MemLogRow)
    (userQuery : String) : List RelatedLog × Bool :=
  let searchTerms := joinSep " | " ((jsSplitSpace userQuery).filter (fun w => 3 < w.length))
  if searchTerms = "" then ([], false)
  else (((orderByCreatedAtDesc (rows.filter (fts searchTerms))).take 5).map formatRelatedLog,
    true)

/-! ## Chat-context merge (ChatPage.tsx, handleSendMessage lines 93-117) -/

/-- An entry of the merged context list (identity and display text; the
remaining carried-along display fields play no role in the merge). -/
structure ContextLog where
  id : Nat
  date : Int
  description : String
deriving DecidableEq

/-- The key `r.id || (r.date ? new Date(r.date).getTime() : 0)` — the DB always
populates `date`, so the fallback is the timestamp itself. -/
def searchKeyOf (r : RelatedLog) : Int :=
  if r.id ≠ 0 then (r.id : Int) else r.date

/-- The key `log.id || (log.createdAt ? new Date(log.createdAt).getTime() : 0)`. -/
def recentKeyOf (l : MemLogRow) : Int :=
  if l.id ≠ 0 then (l.id : Int) else l.createdAt

def ofSearchResult (r : RelatedLog) : ContextLog :=
  { id := r.id, date := r.date, description := r.description }

/-- The recent-log conversion of the merge step (lines 104-114), with the
`log.description || log.content` fallback. -/
def formatRecentLog (l : MemLogRow) : ContextLog :=
  { id := l.id, date := l.createdAt,
    description := if l.description = "" then l.content else l.description }

/-- Identity of a merged entry, as the merge step computes it. -/
def ctxKeyOf (c : ContextLog) : Int :=
  if c.id ≠ 0 then (c.id : Int) else c.date

/-- The merge (lines 93-117): search results first, then the recent logs
whose identity key is not among the search-result keys. -/
def mergeChatContext (S : List RelatedLog) (R : List MemLogRow) : List ContextLog :=
  let searchResultIds := S.map searchKeyOf
  let uniqueRecentLogs := R.filter (fun l => !(searchResultIds.contains (recentKeyOf l)))
  S.map ofSearchResult ++ uniqueRecentLogs.map formatRecentLog

/-! ## Chat-message save path (part_001, saveChatMessage) -/

/-- A row of the `activities` table (columns the chat path touches). -/
structure ActivityRow where
  id : Nat
  name : String
  domainId : Nat
deriving DecidableEq

/-- The metadata object saveChatMessage assembles (lines 41-52). -/
structure ChatMetadata where
  chatRole : String
  isChatMessage : Bool
  conversationContext : Option (List (String × String × Int))
deriving DecidableEq

/-- The log row saveChatMessage inserts (lines 55-69). -/
structure ChatLogRow where
  content : String
  description : String
  userInput : String
  domainId : Nat
  activityId : Nat
  moodScore : Int
  energyLevel : Int
  productivityScore : Int
  metadata : ChatMetadata
  priority : String
  aiAction : String
deriving DecidableEq

/-- The tables the chat save path touches, with the serial id counters. -/
structure ChatDB where
  domains : List DomainRow
  activities : List ActivityRow
  logs : List ChatLogRow
  nextDomainId : Nat
  nextActivityId : Nat
deriving DecidableEq

structure ChatMessage where
  role : String
  content : String
  timestamp : Int
deriving DecidableEq

/-- Lines 20-25: look up the domain named General, create it bare when
absent (schema defaults: no color, active). -/
def resolveGeneralDomain (db : ChatDB) : Nat × ChatDB :=
  match db.domains.find? (fun d => d.name == "General") with
  | some d => (d.id, db)
  | none =>
      let row : DomainRow :=
        { id := db.nextDomainId, name := "General", color := none, isActive := true }
      (db.nextDomainId,
        { db with domains := db.domains ++ [row], nextDomainId := db.nextDomainId + 1 })

/-- Lines 27-38: look up the activity named Chat BY NAME ALONE (no domain
condition in the where clause), create it under the given domain when
absent. -/
def resolveChatActivity (db : ChatDB) (domainId : Nat) : Nat × ChatDB :=
  match db.activities.find? (fun a => a.name == "Chat") with
  | some a => (a.id, db)
  | none =>
      let row : ActivityRow := { id := db.nextActivityId, name := "Chat", domainId := domainId }
      (db.nextActivityId,
        { db with
            activities := db.activities ++ [row]
            nextActivityId := db.nextActivityId + 1 })

/-- The metadata and insert row saveChatMessage builds (part_001 lines
40-69), given the resolved domain and activity ids. -/
def chatInsertRow (message : ChatMessage)
    (conversationContext : Option (List ChatMessage)) (domainId activityId : Nat) :
    ChatLogRow :=
  let metadata : ChatMetadata :=
    { chatRole := message.role
      isChatMessage := true
      conversationContext :=
        match conversationContext with
        | some ctx =>
            if 0 < ctx.length then
              some (ctx.map (fun m => (m.role, jsSubstring m.content 200, m.timestamp)))
            else none
        | none => none }
  { content := message.content
    description :=
      if message.role == "user" then "User chat: " ++ jsSubstring message.content 100
      else "AI response: " ++ jsSubstring message.content 100
    userInput := message.content
    domainId := domainId
    activityId := activityId
    moodScore := 5
    energyLevel := 5
    productivityScore := 5
    metadata := metadata
    priority := "low"
    aiAction := if message.role == "user" then "question" else "insight" }

/-- saveChatMessage (part_001 lines 14-78). -/
def saveChatMessage (db : ChatDB) (message : ChatMessage)
    (conversationContext : Option (List ChatMessage)) : ChatDB × Bool :=
  let r1 := resolveGeneralDomain db
  let r2 := resolveChatActivity r1.2 r1.1
  ({ r2.2 with logs := r2.2.logs ++ [chatInsertRow message conversationContext r1.1 r2.1] },
    true)

/-- The domain id the chat save path resolves for General on a given store. -/
def chatGeneralDomainId (db : ChatDB) : Nat :=
  (resolveGeneralDomain db).1

/-! ## Theorems -/

/-- Sorting by descending creation time is a total relation. -/
instance : IsTotal MemLogRow (fun a b => b.createdAt ≤ a.createdAt) :=
  ⟨fun a b => le_total b.createdAt a.createdAt⟩

/-- Sorting by descending creation time is transitive. -/
instance : IsTrans MemLogRow (fun a b => b.createdAt ≤ a.createdAt) :=
  ⟨fun _ _ _ hab hbc => le_trans hbc hab⟩

/-- The description of the C2 end-to-end test. -/
def c2desc : String := "I finally solved the bug and feel great"

/-- The C2 payload: that description, no caller-supplied scores. -/
def c2payload : IncomingLogData :=
  { emptyPayload with log := { description := some c2desc, user_input := some c2desc } }

/-- C2: on the payload with description "I finally solved the bug and feel
great" and no caller-supplied scores, the normalizer stores moodScore 8
(the word "great" matches the second mood rule while no first-rule mood
keyword occurs), energyLevel 5 (no energy keyword of either rule occurs),
and productivityScore 8 ("solved" matches the first productivity rule,
which is checked before the "bug" rule — a second-rule keyword is in fact
present and loses). -/
theorem c2_inferred_scores :
    (buildInsertData c2payload 1 1).moodScore = 8
    ∧ (buildInsertData c2payload 1 1).energyLevel = 5
    ∧ (buildInsertData c2payload 1 1).productivityScore = 8
    ∧ containsAny (jsToLower c2desc) moodLowKeywords = false
    ∧ jsIncludes (jsToLower c2desc) "great" = true
    ∧ containsAny (jsToLower c2desc) energyLowKeywords = false
    ∧ containsAny (jsToLower c2desc) energyHighKeywords = false
    ∧ jsIncludes (jsToLower c2desc) "solved" = true
    ∧ containsAny (jsToLower c2desc) prodLowKeywords = true := by
  decide

/-- C3: getOrCreateDomain canonicalizes (trim, then uppercase the first
character and lowercase the rest) and uses the canonical form for both the
lookup and the insert, so on a store with at most one row per canonical
name two calls whose arguments canonicalize alike return the same id; and
from an empty store "  WORK " creates the row named "Work" colored
#3B82F6. -/
theorem c3_resolveDomain_canonical
    (st : DomainStore) (d1 d2 : String)
    (h1 : st.rows.Pairwise (fun a b => a.name ≠ b.name))
    (h2 : canonicalDomainName d1 = canonicalDomainName d2) :
    (getOrCreateDomain st d1).1 = (getOrCreateDomain (getOrCreateDomain st d1).2 d2).1
    ∧ getOrCreateDomain ⟨[], 1⟩ "  WORK "
        = (1, ⟨[⟨1, "Work", some "#3B82F6", true⟩], 2⟩) := by
  refine ⟨?_, by decide⟩
  have h2' : capitalizeFirst (jsTrim d2) = capitalizeFirst (jsTrim d1) := h2.symm
  cases hfind : st.rows.find? (fun d => d.name == capitalizeFirst (jsTrim d1)) with
  | some row =>
      simp only [getOrCreateDomain, h2', hfind]
  | none =>
      simp only [getOrCreateDomain, h2', hfind, List.find?_append]
      simp

theorem c3_resolveDomain_canonical_witness :
    (getOrCreateDomain ⟨[], 5⟩ "work").1
      = (getOrCreateDomain (getOrCreateDomain ⟨[], 5⟩ "work").2 " WORK").1 :=
  (c3_resolveDomain_canonical ⟨[], 5⟩ "work" " WORK" List.Pairwise.nil (by decide)).1

/-- C5 counterexample: the spec example is wrong about the code — for the
query "hi there" the token "hi" (length 2) is filtered out but "there"
(length 5) survives the length-greater-than-3 filter, so getRelatedLogs
DOES issue a storage query (second component true). -/
theorem c5_counterexample_hi_there_queries :
    (getRelatedLogs (fun _ _ => false) [] "hi there").2 = true
    ∧ (jsSplitSpace "hi there").filter (fun w => 3 < w.length) = ["there"] := by
  decide

/-- C5 amended: whenever no token of the query survives the
length-greater-than-3 filter, getRelatedLogs answers the empty list
without issuing a storage query, for every storage state and every
full-text predicate (the "hi there" example is replaced by one whose
tokens are really all short, such as "hi the"). -/
theorem c5_no_surviving_tokens_no_query
    (fts : String → MemLogRow → Bool) (rows : List MemLogRow) (q : String)
    (h : (jsSplitSpace q).filter (fun w => 3 < w.length) = []) :
    getRelatedLogs fts rows q = ([], false) := by
  simp only [getRelatedLogs, h, joinSep]
  rfl

theorem c5_no_surviving_tokens_no_query_witness :
    getRelatedLogs (fun _ _ => false) [] "hi the" = ([], false) :=
  c5_no_surviving_tokens_no_query (fun _ _ => false) [] "hi the" (by decide)

/-- A log row created at the epoch millisecond 0 (midnight of day 0). -/
def c4row : MemLogRow := ⟨1, 0, "c", "d", "u", none, none⟩

/-- C4 counterexample: with now at noon of day 1 (129600000 ms) and
days = 1, the entry created at millisecond 0 is returned by getRecentLogs
although its createdAt lies strictly before now - days (43200000 ms): the
code widens the window to the start of that calendar day, so the claimed
interval [now - days, now] is wrong. -/
theorem c4_counterexample_outside_interval :
    c4row ∈ getRecentLogs [c4row] 129600000 1
    ∧ ¬((129600000 : Int) - 1 * msPerDay ≤ c4row.createdAt) := by
  decide

/-- C4 amended: getRecentLogs returns exactly the entries whose createdAt
lies in the day-aligned interval from midnight of the day `days` days
before now through 23:59:59.999 of the current day (a superset of
[now - days, now]), ordered by createdAt descending. -/
theorem c4_recent_day_aligned_window (rows : List MemLogRow) (now : Int) (days : Nat) :
    (getRecentLogs rows now days).Perm
        (rows.filter (fun l =>
          decide (startOfDayMs (now - days * msPerDay) ≤ l.createdAt
            ∧ l.createdAt ≤ endOfDayMs now)))
    ∧ List.Sorted (fun a b => b.createdAt ≤ a.createdAt) (getRecentLogs rows now days) := by
  constructor
  · exact List.perm_insertionSort _ _
  · exact List.sorted_insertionSort _ _

/-- Identity keys are preserved by the search-result injection. -/
theorem ctxKeyOf_ofSearchResult (r : RelatedLog) : ctxKeyOf (ofSearchResult r) = searchKeyOf r :=
  rfl

/-- Identity keys are preserved by the recent-log conversion. -/
theorem ctxKeyOf_formatRecentLog (l : MemLogRow) : ctxKeyOf (formatRecentLog l) = recentKeyOf l :=
  rfl

/-- C1: the merged chat context is all of S (converted) followed by
exactly those entries of R whose identity key (id, falling back to the
timestamp) does not occur among the keys of S; consequently, when the keys
of S are pairwise distinct (as they are for rows of a search query), every
key occurring in S occurs exactly once in the merged output — and every
S-derived entry precedes every R-derived entry by construction. -/
theorem c1_merge_dedup (S : List RelatedLog) (R : List MemLogRow)
    (h : (S.map searchKeyOf).Nodup) :
    mergeChatContext S R
        = S.map ofSearchResult
          ++ (R.filter (fun l => !((S.map searchKeyOf).contains (recentKeyOf l)))).map
              formatRecentLog
    ∧ ∀ k ∈ S.map searchKeyOf, ((mergeChatContext S R).map ctxKeyOf).count k = 1 := by
  refine ⟨rfl, ?_⟩
  intro k hk
  have hmap : (mergeChatContext S R).map ctxKeyOf
      = S.map searchKeyOf
        ++ (R.filter (fun l => !((S.map searchKeyOf).contains (recentKeyOf l)))).map
            recentKeyOf := by
    simp only [mergeChatContext, List.map_append, List.map_map]
    rfl
  rw [hmap, List.count_append]
  have h1 : (S.map searchKeyOf).count k = 1 := List.count_eq_one_of_mem h hk
  have h2 : ((R.filter (fun l => !((S.map searchKeyOf).contains (recentKeyOf l)))).map
      recentKeyOf).count k = 0 := by
    apply List.count_eq_zero.mpr
    intro hmem
    obtain ⟨l, hl, hlk⟩ := List.mem_map.mp hmem
    have hfilt := (List.mem_filter.mp hl).2
    rw [Bool.not_eq_true'] at hfilt
    simp only [List.contains, List.elem_eq_mem] at hfilt
    have : recentKeyOf l ∈ S.map searchKeyOf := hlk ▸ hk
    rw [decide_eq_true this] at hfilt
    cases hfilt
  rw [h1, h2]

def c1S : List RelatedLog := [⟨1, 10, "c", "d", "u", "W", "A"⟩, ⟨2, 20, "c2", "d2", "u2", "W", "B"⟩]

def c1R : List MemLogRow := [⟨1, 10, "c", "d", "u", none, none⟩, ⟨3, 30, "c3", "", "u3", none, none⟩]

theorem c1_merge_dedup_witness :
    mergeChatContext c1S c1R
      = c1S.map ofSearchResult
        ++ (c1R.filter (fun l => !((c1S.map searchKeyOf).contains (recentKeyOf l)))).map
            formatRecentLog :=
  (c1_merge_dedup c1S c1R (by decide)).1

/-- The key-overriding map of `setKey` does not disturb other keys. -/
theorem any_map_set (o : Obj) (k k' : String) (v : JVal) (hne : (k == k') = false) :
    ((o.map (fun p => if p.1 == k then (k, v) else p)).any fun p => p.1 == k')
      = o.any fun p => p.1 == k' := by
  induction o with
  | nil => rfl
  | cons x xs ih =>
      simp only [List.map_cons, List.any_cons, ih]
      by_cases hx : (x.1 == k) = true
      · rw [if_pos hx]
        have hx' : x.1 = k := eq_of_beq hx
        simp [hx', hne]
      · rw [if_neg hx]

/-- Setting a key makes it present. -/
theorem hasKey_setKey_self (o : Obj) (k : String) (v : JVal) :
    hasKey (setKey o k v) k = true := by
  cases hh : hasKey o k with
  | true =>
      unfold setKey
      rw [if_pos hh]
      unfold hasKey at hh ⊢
      rw [List.any_map]
      rw [List.any_eq_true] at hh ⊢
      obtain ⟨x, hx, hpx⟩ := hh
      refine ⟨x, hx, ?_⟩
      simp [Function.comp, hpx]
  | false =>
      unfold setKey
      rw [if_neg (by simp [hh])]
      unfold hasKey
      simp

/-- Setting one key leaves the presence of a different key unchanged. -/
theorem hasKey_setKey_of_ne (o : Obj) (k : String) (v : JVal) (k' : String)
    (hne : (k == k') = false) :
    hasKey (setKey o k v) k' = hasKey o k' := by
  cases hh : hasKey o k with
  | true =>
      unfold setKey
      rw [if_pos hh]
      exact any_map_set o k k' v hne
  | false =>
      unfold setKey
      rw [if_neg (by simp [hh])]
      unfold hasKey
      rw [List.any_append]
      simp [hne]

/-- Reading the key just set yields the value set. -/
theorem getKey_map_set_self (o : Obj) (k : String) (v : JVal) (h : hasKey o k = true) :
    getKey (o.map (fun p => if p.1 == k then (k, v) else p)) k = some v := by
  induction o with
  | nil => simp [hasKey] at h
  | cons x xs ih =>
      obtain ⟨x1, x2⟩ := x
      rw [List.map_cons]
      by_cases hx : ((x1, x2).1 == k) = true
      · rw [if_pos hx]
        simp [getKey]
      · rw [if_neg hx]
        simp only at hx
        simp only [getKey]
        rw [if_neg hx]
        refine ih ?_
        simp only [hasKey, List.any_cons] at h
        rw [Bool.or_eq_true] at h
        cases h with
        | inl hcontra => exact absurd hcontra hx
        | inr htail => exact htail

/-- Appending a fresh key binding makes it readable. -/
theorem getKey_append_fresh (o : Obj) (k : String) (v : JVal) (h : hasKey o k = false) :
    getKey (o ++ [(k, v)]) k = some v := by
  induction o with
  | nil => simp [getKey]
  | cons x xs ih =>
      obtain ⟨x1, x2⟩ := x
      simp only [hasKey, List.any_cons, Bool.or_eq_false_iff] at h
      simp only [List.cons_append, getKey]
      rw [if_neg (by simp [h.1])]
      exact ih h.2

theorem getKey_setKey_self (o : Obj) (k : String) (v : JVal) :
    getKey (setKey o k v) k = some v := by
  cases hh : hasKey o k with
  | true =>
      unfold setKey
      rw [if_pos hh]
      exact getKey_map_set_self o k v hh
  | false =>
      unfold setKey
      rw [if_neg (by simp [hh])]
      exact getKey_append_fresh o k v hh

/-- Reading a key untouched by the key-overriding map of `setKey`. -/
theorem getKey_map_set_of_ne (o : Obj) (k : String) (v : JVal) (k' : String)
    (hne : (k == k') = false) :
    getKey (o.map (fun p => if p.1 == k then (k, v) else p)) k' = getKey o k' := by
  induction o with
  | nil => rfl
  | cons x xs ih =>
      obtain ⟨x1, x2⟩ := x
      rw [List.map_cons]
      by_cases hx : ((x1, x2).1 == k) = true
      · rw [if_pos hx]
        simp only at hx
        have hx' : x1 = k := eq_of_beq hx
        simp only [getKey]
        rw [if_neg (by simp_all), if_neg (by simp [hx', show ¬(k = k') from by simpa using hne])]
        exact ih
      · rw [if_neg hx]
        simp only at hx
        simp only [getKey]
        by_cases hx' : (x1 == k') = true
        · rw [if_pos hx', if_pos hx']
        · rw [if_neg hx', if_neg hx']
          exact ih

/-- Reading a key different from a freshly appended one. -/
theorem getKey_append_of_ne (o : Obj) (k : String) (v : JVal) (k' : String)
    (hne : (k == k') = false) :
    getKey (o ++ [(k, v)]) k' = getKey o k' := by
  induction o with
  | nil =>
      simp only [List.nil_append, getKey]
      rw [if_neg (by simp [hne])]
  | cons x xs ih =>
      obtain ⟨x1, x2⟩ := x
      simp only [List.cons_append, getKey]
      by_cases hx' : (x1 == k') = true
      · rw [if_pos hx', if_pos hx']
      · rw [if_neg hx', if_neg hx']
        exact ih

theorem getKey_setKey_of_ne (o : Obj) (k : String) (v : JVal) (k' : String)
    (hne : (k == k') = false) :
    getKey (setKey o k v) k' = getKey o k' := by
  cases hh : hasKey o k with
  | true =>
      unfold setKey
      rw [if_pos hh]
      exact getKey_map_set_of_ne o k v k' hne
  | false =>
      unfold setKey
      rw [if_neg (by simp [hh])]
      exact getKey_append_of_ne o k v k' hne

/-- C6 amended: every metadata object the normalizer assembles carries
aiAction (the payload action, defaulting to "acknowledge") and aiPriority
(the payload priority, defaulting to "medium"); an object is assembled
whenever the context has at least one key, and it then carries aiContext.
The converse direction of the aiContext clause holds provided the
caller-supplied metadata does not itself contain an aiContext key — a
stale aiContext key inside the spread caller metadata is carried through
even when the payload context is absent or empty (see the
counterexample), which is the one correction to the claim. -/
theorem c6_metadata_ai_fields (md : Option Obj) (action : Option ActionObj) (ctx : Option Obj) :
    (∀ m, buildMetadata md action ctx = some m →
      getKey m "aiAction" = some (JVal.jstr (aiActionOf action))
      ∧ getKey m "aiPriority" = some (JVal.jstr (aiPriorityOf action))
      ∧ (0 < (ctx.getD []).length → hasKey m "aiContext" = true)
      ∧ (hasKey (md.getD []) "aiContext" = false →
          (hasKey m "aiContext" = true ↔ 0 < (ctx.getD []).length)))
    ∧ (0 < (ctx.getD []).length → (buildMetadata md action ctx).isSome = true) := by
  have hAP : ("aiPriority" == "aiAction") = false := by decide
  have hPA : ("aiAction" == "aiPriority") = false := by decide
  have hCA : ("aiContext" == "aiAction") = false := by decide
  have hCP : ("aiContext" == "aiPriority") = false := by decide
  have hAC : ("aiAction" == "aiContext") = false := by decide
  have hPC : ("aiPriority" == "aiContext") = false := by decide
  constructor
  · intro m hm
    unfold buildMetadata at hm
    by_cases h1 : 0 < (md.getD []).length
    · rw [if_pos h1] at hm
      have hm' := Option.some.inj hm
      subst hm'
      cases ctx with
      | none =>
          simp only [attachCtx]
          refine ⟨?_, ?_, ?_, ?_⟩
          · rw [getKey_setKey_of_ne _ _ _ _ hAP, getKey_setKey_self]
          · rw [getKey_setKey_self]
          · intro hcc
            simp at hcc
          · intro hmd
            rw [hasKey_setKey_of_ne _ _ _ _ hPC, hasKey_setKey_of_ne _ _ _ _ hAC, hmd]
            simp
      | some c =>
          by_cases hc : 0 < c.length
          · simp only [attachCtx, if_pos hc]
            refine ⟨?_, ?_, ?_, ?_⟩
            · rw [getKey_setKey_of_ne _ _ _ _ hCA, getKey_setKey_of_ne _ _ _ _ hAP,
                getKey_setKey_self]
            · rw [getKey_setKey_of_ne _ _ _ _ hCP, getKey_setKey_self]
            · intro _
              exact hasKey_setKey_self _ _ _
            · intro hmd
              rw [hasKey_setKey_self]
              simp [hc]
          · simp only [attachCtx, if_neg hc]
            refine ⟨?_, ?_, ?_, ?_⟩
            · rw [getKey_setKey_of_ne _ _ _ _ hAP, getKey_setKey_self]
            · rw [getKey_setKey_self]
            · intro hcc
              simp only [Option.getD_some] at hcc
              exact absurd hcc hc
            · intro hmd
              rw [hasKey_setKey_of_ne _ _ _ _ hPC, hasKey_setKey_of_ne _ _ _ _ hAC, hmd]
              simp only [Option.getD_some]
              simp [hc]
    · rw [if_neg h1] at hm
      by_cases h2 : (action.isSome || ctx.isSome) = true
      · rw [if_pos h2] at hm
        have hm' := Option.some.inj hm
        subst hm'
        have hbase0A : getKey
            [("aiAction", JVal.jstr (aiActionOf action)),
              ("aiPriority", JVal.jstr (aiPriorityOf action))] "aiAction"
            = some (JVal.jstr (aiActionOf action)) := by
          simp only [getKey]
          rw [if_pos (by decide)]
        have hbase0P : getKey
            [("aiAction", JVal.jstr (aiActionOf action)),
              ("aiPriority", JVal.jstr (aiPriorityOf action))] "aiPriority"
            = some (JVal.jstr (aiPriorityOf action)) := by
          simp only [getKey]
          rw [if_neg (by decide), if_pos (by decide)]
        have hbase0C : hasKey
            [("aiAction", JVal.jstr (aiActionOf action)),
              ("aiPriority", JVal.jstr (aiPriorityOf action))] "aiContext" = false := by
          simp only [hasKey, List.any_cons, List.any_nil]
          rw [show (("aiAction" : String) == "aiContext") = false from by decide,
            show (("aiPriority" : String) == "aiContext") = false from by decide]
          rfl
        cases ctx with
        | none =>
            simp only [attachCtx]
            refine ⟨hbase0A, hbase0P, ?_, ?_⟩
            · intro hcc
              simp at hcc
            · intro _
              rw [hbase0C]
              simp
        | some c =>
            by_cases hc : 0 < c.length
            · simp only [attachCtx, if_pos hc]
              refine ⟨?_, ?_, ?_, ?_⟩
              · rw [getKey_setKey_of_ne _ _ _ _ hCA, hbase0A]
              · rw [getKey_setKey_of_ne _ _ _ _ hCP, hbase0P]
              · intro _
                exact hasKey_setKey_self _ _ _
              · intro _
                rw [hasKey_setKey_self]
                simp [hc]
            · simp only [attachCtx, if_neg hc]
              refine ⟨hbase0A, hbase0P, ?_, ?_⟩
              · intro hcc
                simp only [Option.getD_some] at hcc
                exact absurd hcc hc
              · intro _
                rw [hbase0C]
                simp only [Option.getD_some]
                simp [hc]
      · rw [if_neg h2] at hm
        exact absurd hm (by simp)
  · intro hc
    unfold buildMetadata
    by_cases h1 : 0 < (md.getD []).length
    · rw [if_pos h1]
      rfl
    · rw [if_neg h1]
      have hsome : ctx.isSome = true := by
        cases ctx with
        | none => simp at hc
        | some c => rfl
      rw [if_pos (by simp [hsome])]
      rfl

/-- C6 counterexample: a payload whose caller metadata already contains an
aiContext key, with action and context both absent, yields an assembled
metadata object that DOES contain an aiContext key although the context
has zero keys — refuting the "exactly when" direction of the claim. -/
theorem c6_counterexample_stale_aiContext :
    buildMetadata (some [("aiContext", JVal.jstr "x")]) none none
      = some [("aiContext", JVal.jstr "x"), ("aiAction", JVal.jstr "acknowledge"),
          ("aiPriority", JVal.jstr "medium")]
    ∧ hasKey [("aiContext", JVal.jstr "x"), ("aiAction", JVal.jstr "acknowledge"),
          ("aiPriority", JVal.jstr "medium")] "aiContext" = true
    ∧ ((none : Option Obj).getD []).length = 0 :=
  ⟨rfl, rfl, rfl⟩

theorem c6_metadata_ai_fields_witness :
    getKey [("aiAction", JVal.jstr "log"), ("aiPriority", JVal.jstr "high")] "aiAction"
      = some (JVal.jstr (aiActionOf (some ⟨some "log", some "high"⟩))) :=
  ((c6_metadata_ai_fields none (some ⟨some "log", some "high"⟩) none).1 _ rfl).1

/-- The stored amount field, as the normalizer computes it. -/
theorem insertData_amount_eq (data : IncomingLogData) (dId aId : Nat) :
    (buildInsertData data dId aId).amount
      = match data.amount with
        | some a => if a ≠ 0 ∧ 0 < a then some (toString a) else none
        | none => none :=
  rfl

/-- The stored currency field, as the normalizer computes it. -/
theorem insertData_currency_eq (data : IncomingLogData) (dId aId : Nat) :
    (buildInsertData data dId aId).currency
      = match data.amount with
        | some a =>
            if a ≠ 0 ∧ 0 < a then
              some (match data.currency with
                | some c => if c ≠ "" ∧ jsTrim c ≠ "" then jsToUpper c else "INR"
                | none => "INR")
            else none
        | none => none :=
  rfl

/-- C7: the stored metadata of every record the normalizer produces is
never an empty object — whenever it is non-null it has at least one key —
and on the payload with metadata equal to the empty object and action and
context absent it is null. -/
theorem c7_metadata_never_empty (data : IncomingLogData) (dId aId : Nat) :
    (∀ m, (buildInsertData data dId aId).metadata = some m → 0 < m.length)
    ∧ (buildInsertData { emptyPayload with metadata := some [] } 0 0).metadata = none := by
  constructor
  · intro m hm
    have hm' : storedMetadata data.metadata data.action data.context = some m := hm
    unfold storedMetadata at hm'
    cases hb : buildMetadata data.metadata data.action data.context with
    | none =>
        rw [hb] at hm'
        exact absurd hm' (by simp)
    | some m0 =>
        rw [hb] at hm'
        have hm'' : (if 0 < m0.length then some m0 else none) = some m := hm'
        by_cases hl : 0 < m0.length
        · rw [if_pos hl] at hm''
          have he := Option.some.inj hm''
          rw [← he]
          exact hl
        · rw [if_neg hl] at hm''
          exact absurd hm'' (by simp)
  · rfl

theorem c7_metadata_never_empty_witness :
    0 < ([("k", JVal.jstr "v"), ("aiAction", JVal.jstr "acknowledge"),
        ("aiPriority", JVal.jstr "medium")] : Obj).length :=
  (c7_metadata_never_empty
      { emptyPayload with metadata := some [("k", JVal.jstr "v")] } 0 0).1 _ rfl

/-- C8 counterexample: the claim says the stored currency "is the supplied
currency", but the code uppercases it — supplying amount 500 and currency
"usd" stores "USD", not "usd". -/
theorem c8_counterexample_currency_uppercased :
    (buildInsertData { emptyPayload with amount := some 500, currency := some "usd" } 0 0).currency
      = some "USD"
    ∧ (buildInsertData { emptyPayload with amount := some 500, currency := some "usd" } 0 0).currency
      ≠ some "usd" := by
  refine ⟨rfl, ?_⟩
  decide

/-- C8 amended: amount and currency are both present or both null; amount
is kept (stringified) exactly when the supplied amount is strictly
positive, in which case the stored currency is the UPPERCASED supplied
currency, or "INR" when the supplied currency is absent, empty, or
whitespace-only; amount 500 with currency absent stores "INR", and amount
0 stores null for both. -/
theorem c8_amount_currency (data : IncomingLogData) (dId aId : Nat) :
    ((buildInsertData data dId aId).amount = none
      ↔ (buildInsertData data dId aId).currency = none)
    ∧ (∀ a : Int, data.amount = some a → 0 < a →
        (buildInsertData data dId aId).amount = some (toString a))
    ∧ (∀ a : Int, data.amount = some a → 0 < a → data.currency = none →
        (buildInsertData data dId aId).currency = some "INR")
    ∧ (∀ a : Int, ∀ c : String, data.amount = some a → 0 < a → data.currency = some c →
        jsTrim c = "" → (buildInsertData data dId aId).currency = some "INR")
    ∧ (∀ a : Int, ∀ c : String, data.amount = some a → 0 < a → data.currency = some c →
        c ≠ "" → jsTrim c ≠ "" →
        (buildInsertData data dId aId).currency = some (jsToUpper c))
    ∧ (∀ a : Int, data.amount = some a → ¬(0 < a) →
        (buildInsertData data dId aId).amount = none
        ∧ (buildInsertData data dId aId).currency = none)
    ∧ (data.amount = none → (buildInsertData data dId aId).amount = none)
    ∧ (buildInsertData { emptyPayload with amount := some 500 } 0 0).currency = some "INR"
    ∧ (buildInsertData { emptyPayload with amount := some 0 } 0 0).amount = none
    ∧ (buildInsertData { emptyPayload with amount := some 0 } 0 0).currency = none := by
  refine ⟨?_, ?_, ?_, ?_, ?_, ?_, ?_, rfl, rfl, rfl⟩
  · rw [insertData_amount_eq, insertData_currency_eq]
    cases data.amount with
    | none => simp
    | some a =>
        show (if a ≠ 0 ∧ 0 < a then some (toString a) else none) = none
          ↔ (if a ≠ 0 ∧ 0 < a then
              some (match data.currency with
                | some c => if c ≠ "" ∧ jsTrim c ≠ "" then jsToUpper c else "INR"
                | none => "INR")
            else none) = none
        by_cases h : a ≠ 0 ∧ 0 < a
        · rw [if_pos h, if_pos h]
          simp
        · rw [if_neg h, if_neg h]
  · intro a ha hpos
    rw [insertData_amount_eq, ha]
    show (if a ≠ 0 ∧ 0 < a then some (toString a) else none) = some (toString a)
    rw [if_pos ⟨by omega, hpos⟩]
  · intro a ha hpos hcur
    rw [insertData_currency_eq, ha, hcur]
    show (if a ≠ 0 ∧ 0 < a then some "INR" else none) = some "INR"
    rw [if_pos ⟨by omega, hpos⟩]
  · intro a c ha hpos hcur htrim
    rw [insertData_currency_eq, ha, hcur]
    show (if a ≠ 0 ∧ 0 < a then
        some (if c ≠ "" ∧ jsTrim c ≠ "" then jsToUpper c else "INR") else none) = some "INR"
    rw [if_pos ⟨by omega, hpos⟩, if_neg (fun hand => hand.2 htrim)]
  · intro a c ha hpos hcur hc htrim
    rw [insertData_currency_eq, ha, hcur]
    show (if a ≠ 0 ∧ 0 < a then
        some (if c ≠ "" ∧ jsTrim c ≠ "" then jsToUpper c else "INR") else none)
      = some (jsToUpper c)
    rw [if_pos ⟨by omega, hpos⟩, if_pos ⟨hc, htrim⟩]
  · intro a ha hnpos
    refine ⟨?_, ?_⟩
    · rw [insertData_amount_eq, ha]
      show (if a ≠ 0 ∧ 0 < a then some (toString a) else none) = none
      rw [if_neg (fun hand => hnpos hand.2)]
    · rw [insertData_currency_eq, ha]
      show (if a ≠ 0 ∧ 0 < a then
          some (match data.currency with
            | some c => if c ≠ "" ∧ jsTrim c ≠ "" then jsToUpper c else "INR"
            | none => "INR")
        else none) = none
      rw [if_neg (fun hand => hnpos hand.2)]
  · intro ha
    rw [insertData_amount_eq, ha]

theorem c8_amount_currency_witness :
    (buildInsertData { emptyPayload with amount := some 500, currency := some "usd" } 0 0).currency
      = some (jsToUpper "usd") :=
  (c8_amount_currency { emptyPayload with amount := some 500, currency := some "usd" }
      0 0).2.2.2.2.1 500 "usd" rfl (by decide) rfl (by decide) (by decide)

/-- The stored timeOfDay field, as the normalizer computes it. -/
theorem insertData_timeOfDay_eq (data : IncomingLogData) (dId aId : Nat) :
    (buildInsertData data dId aId).timeOfDay
      = match data.timeOfDay with
        | some t =>
            if t ≠ "" ∧ validTimeOfDay.contains (jsToLower t) then some (jsToLower t) else none
        | none => none :=
  rfl

/-- The stored sentiment field, as the normalizer computes it. -/
theorem insertData_sentiment_eq (data : IncomingLogData) (dId aId : Nat) :
    (buildInsertData data dId aId).sentiment
      = match data.sentiment with
        | some s =>
            if s ≠ "" ∧ validSentiments.contains (jsToLower s) then some (jsToLower s) else none
        | none => none :=
  rfl

/-- C9: timeOfDay and sentiment are accepted case-insensitively and stored
lowercased — a value whose lowercasing is in the valid set is stored in
lowercase form (e.g. "Morning" is stored as "morning"), every other value
(including absence) is stored as null. -/
theorem c9_enum_fields (data : IncomingLogData) (dId aId : Nat) :
    (∀ t, data.timeOfDay = some t → validTimeOfDay.contains (jsToLower t) = true →
        (buildInsertData data dId aId).timeOfDay = some (jsToLower t))
    ∧ (∀ t, data.timeOfDay = some t → validTimeOfDay.contains (jsToLower t) = false →
        (buildInsertData data dId aId).timeOfDay = none)
    ∧ (data.timeOfDay = none → (buildInsertData data dId aId).timeOfDay = none)
    ∧ (∀ s, data.sentiment = some s → validSentiments.contains (jsToLower s) = true →
        (buildInsertData data dId aId).sentiment = some (jsToLower s))
    ∧ (∀ s, data.sentiment = some s → validSentiments.contains (jsToLower s) = false →
        (buildInsertData data dId aId).sentiment = none)
    ∧ (data.sentiment = none → (buildInsertData data dId aId).sentiment = none)
    ∧ (buildInsertData { emptyPayload with timeOfDay := some "Morning" } 0 0).timeOfDay
        = some "morning"
    ∧ (buildInsertData { emptyPayload with sentiment := some "Positive" } 0 0).sentiment
        = some "positive" := by
  refine ⟨?_, ?_, ?_, ?_, ?_, ?_, rfl, rfl⟩
  · intro t ht hc
    have htne : t ≠ "" := by
      intro he
      subst he
      exact absurd hc (by decide)
    rw [insertData_timeOfDay_eq, ht]
    show (if t ≠ "" ∧ validTimeOfDay.contains (jsToLower t) = true then some (jsToLower t)
      else none) = some (jsToLower t)
    rw [if_pos ⟨htne, hc⟩]
  · intro t ht hc
    have hns : ¬(t ≠ "" ∧ validTimeOfDay.contains (jsToLower t) = true) := by
      rw [hc]
      simp
    rw [insertData_timeOfDay_eq, ht]
    show (if t ≠ "" ∧ validTimeOfDay.contains (jsToLower t) = true then some (jsToLower t)
      else none) = none
    rw [if_neg hns]
  · intro ht
    rw [insertData_timeOfDay_eq, ht]
  · intro s hs hc
    have hsne : s ≠ "" := by
      intro he
      subst he
      exact absurd hc (by decide)
    rw [insertData_sentiment_eq, hs]
    show (if s ≠ "" ∧ validSentiments.contains (jsToLower s) = true then some (jsToLower s)
      else none) = some (jsToLower s)
    rw [if_pos ⟨hsne, hc⟩]
  · intro s hs hc
    have hns : ¬(s ≠ "" ∧ validSentiments.contains (jsToLower s) = true) := by
      rw [hc]
      simp
    rw [insertData_sentiment_eq, hs]
    show (if s ≠ "" ∧ validSentiments.contains (jsToLower s) = true then some (jsToLower s)
      else none) = none
    rw [if_neg hns]
  · intro hs
    rw [insertData_sentiment_eq, hs]

theorem c9_enum_fields_witness :
    (buildInsertData { emptyPayload with timeOfDay := some "Morning" } 0 0).timeOfDay
      = some (jsToLower "Morning") :=
  (c9_enum_fields { emptyPayload with timeOfDay := some "Morning" } 0 0).1 "Morning" rfl
    (by decide)

/-- C10: the chat save path looks the "Chat" activity up by name alone —
when the store already holds an activity named "Chat" under a domain other
than the resolved "General" domain, the saved chat log is attached to that
existing activity (no "Chat" activity is created under "General", the
activities table is unchanged), while the log itself carries the "General"
domain id, which then differs from its activity's domain. -/
theorem c10_chat_activity_global (db : ChatDB) (msg : ChatMessage)
    (ctx : Option (List ChatMessage)) (a : ActivityRow)
    (h : db.activities.find? (fun x => x.name == "Chat") = some a)
    (h2 : a.domainId ≠ chatGeneralDomainId db) :
    (saveChatMessage db msg ctx).1.activities = db.activities
    ∧ (saveChatMessage db msg ctx).1.logs
        = db.logs ++ [chatInsertRow msg ctx (chatGeneralDomainId db) a.id]
    ∧ (chatInsertRow msg ctx (chatGeneralDomainId db) a.id).activityId = a.id
    ∧ (chatInsertRow msg ctx (chatGeneralDomainId db) a.id).domainId ≠ a.domainId := by
  have hact : (resolveGeneralDomain db).2.activities = db.activities := by
    unfold resolveGeneralDomain
    cases db.domains.find? (fun d => d.name == "General") <;> rfl
  have hlogs : (resolveGeneralDomain db).2.logs = db.logs := by
    unfold resolveGeneralDomain
    cases db.domains.find? (fun d => d.name == "General") <;> rfl
  have hres : resolveChatActivity (resolveGeneralDomain db).2 (resolveGeneralDomain db).1
      = (a.id, (resolveGeneralDomain db).2) := by
    unfold resolveChatActivity
    rw [hact, h]
  refine ⟨?_, ?_, rfl, ?_⟩
  · show (saveChatMessage db msg ctx).1.activities = db.activities
    simp only [saveChatMessage, hres]
    exact hact
  · simp only [saveChatMessage, hres]
    rw [hlogs]
    rfl
  · exact fun he => h2 he.symm

def c10db : ChatDB :=
  { domains := [⟨1, "General", none, true⟩], activities := [⟨7, "Chat", 3⟩], logs := []
    nextDomainId := 2, nextActivityId := 8 }

theorem c10_chat_activity_global_witness :
    (saveChatMessage c10db ⟨"user", "hello", 5⟩ none).1.activities = c10db.activities :=
  (c10_chat_activity_global c10db ⟨"user", "hello", 5⟩ none ⟨7, "Chat", 3⟩ rfl (by decide)).1
